import Mathlib

/-!
Verification of the `newaiagent` content-generation pipeline.

Shallow embedding of the string-processing and orchestration logic of
`cointelegraph.py`, `ultimate_crypto_agent.py` and `temp/cointelegraph1.py`.
Python strings are modelled as `List Char` (one entry per code point, which
matches Python's `len`/slicing semantics); `String` wrappers are provided at
the API boundary.  Python floats are modelled as exact rationals `ℚ`.
-/

/-! ## Python string primitives -/

/-- The characters stripped by Python's `str.strip()` (ASCII whitespace). -/
def pySpace (c : Char) : Bool :=
  c = ' ' || c = '\t' || c = '\n' || c = '\r' || c = '\x0b' || c = '\x0c'

/-- Python `str.strip(chars)`: drop characters satisfying `p` from both ends. -/
def pyStripPred (p : Char → Bool) (l : List Char) : List Char :=
  ((l.dropWhile p).reverse.dropWhile p).reverse

/-- Python `str.strip()` on a character list. -/
def pyStrip (l : List Char) : List Char := pyStripPred pySpace l

/-- Python `str.strip()` on a `String`. -/
def pyStripStr (s : String) : String := ⟨pyStrip s.data⟩

/-- Python `str.split(c)` for a single-character separator: splits at every
occurrence, keeping empty segments (`"".split(c) == [""]`). -/
def splitChar (c : Char) : List Char → List (List Char)
  | [] => [[]]
  | x :: xs =>
    match splitChar c xs with
    | [] => if x = c then [[], []] else [[x]]
    | r :: rs => if x = c then [] :: r :: rs else (x :: r) :: rs

/-- Python `str.lower()` (ASCII case folding, the only case relevant here). -/
def lowerL (l : List Char) : List Char := l.map Char.toLower

/-- Python `line.split(':', 1)[-1]`: everything after the first colon, or the
whole string when no colon occurs. -/
def afterColon (l : List Char) : List Char :=
  if l.contains ':' then (l.dropWhile (fun c => c ≠ ':')).tail else l

/-- Python `sep.join(parts)` on character lists. -/
def interL (sep : List Char) : List (List Char) → List Char
  | [] => []
  | [x] => x
  | x :: y :: rest => x ++ sep ++ interL sep (y :: rest)

/-- Python `" ".join`-style join for `String` parts. -/
def interS (sep : String) : List String → String
  | [] => ""
  | [x] => x
  | x :: y :: rest => x ++ sep ++ interS sep (y :: rest)

/-! ## Title extraction of `cointelegraph.py` (`run_ultimate_agent`, lines 784-798) -/

namespace Cointelegraph

/-- The stripped non-empty lines of the generated content:
`[line.strip() for line in content.split('\n') if line.strip()]`. -/
def nonEmptyLines (content : List Char) : List (List Char) :=
  ((splitChar '\n' content).map pyStrip).filter (fun l => !l.isEmpty)

/-- The headline-marker test:
`line.lower().startswith('**headline:**') or line.lower().startswith('headline:')`. -/
def isHeadlineMarker (line : List Char) : Bool :=
  "**headline:**".data.isPrefixOf (lowerL line) ||
  "headline:".data.isPrefixOf (lowerL line)

/-- The title value extracted from a marker line:
`line.split(':', 1)[-1].strip(' *')`. -/
def headlinePayload (line : List Char) : List Char :=
  pyStripPred (fun c => c = ' ' || c = '*') (afterColon line)

/-- One iteration of the title-scan loop.  The state is
`(title, body_lines)`; Python initialises `title = None` and tests it with
`if not title`, under which `None` and `""` are indistinguishable, so the
unset state is modelled by the empty list. -/
def tbStep (st : List Char × List (List Char)) (line : List Char) :
    List Char × List (List Char) :=
  if st.1.isEmpty && isHeadlineMarker line then (headlinePayload line, st.2)
  else (st.1, st.2 ++ [line])

/-- Title/body split of `run_ultimate_agent` (lines 784-798): scan the
stripped non-empty lines for a headline marker; if none produced a (truthy)
title, fall back to the first line, with `body_lines = lines[1:]`. -/
def extractTitleBodyL (content : List Char) : List Char × List Char :=
  let lines := nonEmptyLines content
  let st := lines.foldl tbStep ([], [])
  if st.1.isEmpty then
    match lines with
    | [] => ("Untitled".data, interL "\n\n".data [])
    | l :: rest => (l, interL "\n\n".data rest)
  else (st.1, interL "\n\n".data st.2)

/-- `String`-level wrapper of `extractTitleBodyL`. -/
def extractTitleBody (content : String) : String × String :=
  let r := extractTitleBodyL content.data
  (⟨r.1⟩, ⟨r.2⟩)

end Cointelegraph

/-! ## Title extraction of `ultimate_crypto_agent.py` (lines 778-781) -/

namespace UltimateAgent

/-- Title/body split of `ultimate_crypto_agent.py`:
`lines = content.split('\n'); title = lines[0].strip();
body_content = '\n\n'.join(lines[1:])`.  No headline-marker scan, no
filtering of empty lines. -/
def extractTitleBodyL (content : List Char) : List Char × List Char :=
  match splitChar '\n' content with
  | [] => ([], [])
  | l :: rest => (pyStrip l, interL "\n\n".data rest)

/-- `String`-level wrapper of `extractTitleBodyL`. -/
def extractTitleBody (content : String) : String × String :=
  let r := extractTitleBodyL content.data
  (⟨r.1⟩, ⟨r.2⟩)

end UltimateAgent

namespace Cointelegraph

/-- Specification-level description of the title/body split (amended wording):
scan the non-empty stripped lines; while no title is set, a marker line whose
payload (text after the first colon, trimmed of surrounding spaces and
asterisks) is non-empty sets the title and is excluded from the body; a
marker line with an empty payload is excluded from the body but leaves the
title unset; non-marker lines accumulate into the body; if no non-empty
title was produced, the first non-empty line becomes the title and the
remaining non-empty lines form the body. -/
def specStep (st : Option (List Char) × List (List Char)) (line : List Char) :
    Option (List Char) × List (List Char) :=
  match st.1 with
  | some t => (some t, st.2 ++ [line])
  | none =>
    if isHeadlineMarker line then
      (if (headlinePayload line).isEmpty then none else some (headlinePayload line), st.2)
    else (none, st.2 ++ [line])

/-- Specification-level title/body split (see `specStep`). -/
def titleBodySpecL (content : List Char) : List Char × List Char :=
  let lines := nonEmptyLines content
  let st := lines.foldl specStep (none, [])
  match st.1 with
  | none =>
    match lines with
    | [] => ("Untitled".data, interL "\n\n".data [])
    | l :: rest => (l, interL "\n\n".data rest)
  | some t => (t, interL "\n\n".data st.2)

/-- `String`-level wrapper of `titleBodySpecL`. -/
def titleBodySpec (content : String) : String × String :=
  let r := titleBodySpecL content.data
  (⟨r.1⟩, ⟨r.2⟩)

/-- Relation between the implementation scan state (empty title = unset,
mirroring Python's `if not title`) and the specification scan state. -/
def scanRel (a : List Char × List (List Char))
    (b : Option (List Char) × List (List Char)) : Prop :=
  a.2 = b.2 ∧ ((a.1 = [] ∧ b.1 = none) ∨ (a.1 ≠ [] ∧ b.1 = some a.1))

theorem scanRel_step (line : List Char) {a : List Char × List (List Char)}
    {b : Option (List Char) × List (List Char)} (h : scanRel a b) :
    scanRel (tbStep a line) (specStep b line) := by
  obtain ⟨t, body⟩ := a
  obtain ⟨o, body'⟩ := b
  simp only [scanRel] at h ⊢
  obtain ⟨hb, ht⟩ := h
  subst hb
  rcases ht with ⟨ht, ho⟩ | ⟨ht, ho⟩
  · subst ht; subst ho
    by_cases hm : isHeadlineMarker line
    · by_cases hp : (headlinePayload line).isEmpty
      · have hp' : headlinePayload line = [] := by
          cases hc : headlinePayload line with
          | nil => rfl
          | cons c cs => rw [hc] at hp; simp at hp
        simp [tbStep, specStep, hm, hp, hp']
      · have hp' : headlinePayload line ≠ [] := by
          intro hc
          rw [hc] at hp
          simp at hp
        simp [tbStep, specStep, hm, hp, hp']
    · simp [tbStep, specStep, hm]
  · subst ho
    have ht' : t.isEmpty = false := by
      cases t with
      | nil => exact absurd rfl ht
      | cons c cs => rfl
    simp [tbStep, specStep, ht', ht]

theorem scanRel_foldl (lines : List (List Char)) :
    ∀ {a : List Char × List (List Char)} {b : Option (List Char) × List (List Char)},
      scanRel a b → scanRel (lines.foldl tbStep a) (lines.foldl specStep b) := by
  induction lines with
  | nil => intro a b h; exact h
  | cons line rest ih => intro a b h; exact ih (scanRel_step line h)

theorem extractTitleBodyL_eq_spec (content : List Char) :
    extractTitleBodyL content = titleBodySpecL content := by
  have h := scanRel_foldl (nonEmptyLines content)
    (a := ([], [])) (b := (none, [])) ⟨rfl, Or.inl ⟨rfl, rfl⟩⟩
  obtain ⟨hb, ht⟩ := h
  unfold extractTitleBodyL titleBodySpecL
  dsimp only
  rcases ht with ⟨ht, ho⟩ | ⟨ht, ho⟩
  · rw [ho, ht]
    simp
  · rw [ho]
    have ht' : ((nonEmptyLines content).foldl tbStep ([], [])).1.isEmpty = false := by
      cases hc : ((nonEmptyLines content).foldl tbStep ([], [])).1 with
      | nil => exact absurd hc ht
      | cons c cs => rfl
    simp [ht', hb]

end Cointelegraph

/-! ## Auxiliary lemmas about the string primitives -/

theorem listIsEmpty_iff {α : Type} {l : List α} : l.isEmpty = true ↔ l = [] := by
  cases l <;> simp

theorem pyStripPred_eq_nil_imp {p : Char → Bool} {l : List Char}
    (h : pyStripPred p l = []) : ∀ c ∈ l, p c := by
  intro c hc
  unfold pyStripPred at h
  have h1 : (l.dropWhile p).reverse.dropWhile p = [] := by
    have := congrArg List.reverse h
    simpa using this
  have h2 : ∀ x ∈ (l.dropWhile p).reverse, p x := List.dropWhile_eq_nil_iff.mp h1
  have h3 : ∀ x ∈ l.dropWhile p, p x := fun x hx => h2 x (List.mem_reverse.mpr hx)
  have h4 : l = l.takeWhile p ++ l.dropWhile p := (List.takeWhile_append_dropWhile p l).symm
  rw [h4] at hc
  rcases List.mem_append.mp hc with hc | hc
  · exact List.mem_takeWhile_imp hc
  · exact h3 c hc

theorem pyStripPred_ne_nil {p : Char → Bool} {l : List Char} {c : Char}
    (hc : c ∈ l) (hp : p c = false) : pyStripPred p l ≠ [] := by
  intro h
  have := pyStripPred_eq_nil_imp h c hc
  rw [hp] at this
  exact Bool.false_ne_true this

theorem splitChar_ne_nil (c : Char) (l : List Char) : splitChar c l ≠ [] := by
  induction l with
  | nil => simp [splitChar]
  | cons x xs ih =>
    simp only [splitChar]
    cases h : splitChar c xs with
    | nil => exact absurd h ih
    | cons r rs =>
      dsimp only
      split <;> simp

theorem mem_splitChar_of_mem {sep : Char} {l : List Char} {c : Char}
    (hc : c ∈ l) (hne : c ≠ sep) : ∃ seg ∈ splitChar sep l, c ∈ seg := by
  induction l with
  | nil => cases hc
  | cons x xs ih =>
    simp only [splitChar]
    cases h : splitChar sep xs with
    | nil => exact absurd h (splitChar_ne_nil sep xs)
    | cons r rs =>
      dsimp only
      rcases List.mem_cons.mp hc with rfl | hmem
      · rw [if_neg hne]
        exact ⟨c :: r, List.mem_cons_self _ _, List.mem_cons_self _ _⟩
      · obtain ⟨seg, hseg, hcseg⟩ := ih hmem
        rw [h] at hseg
        by_cases hx : x = sep
        · rw [if_pos hx]
          exact ⟨seg, List.mem_cons_of_mem _ hseg, hcseg⟩
        · rw [if_neg hx]
          rcases List.mem_cons.mp hseg with rfl | hseg'
          · exact ⟨x :: seg, List.mem_cons_self _ _, List.mem_cons_of_mem _ hcseg⟩
          · exact ⟨seg, List.mem_cons_of_mem _ hseg', hcseg⟩

theorem pyStripPred_eq_nil_of_all {p : Char → Bool} {l : List Char}
    (h : ∀ c ∈ l, p c) : pyStripPred p l = [] := by
  unfold pyStripPred
  rw [List.dropWhile_eq_nil_iff.mpr h]
  rfl

theorem Cointelegraph.nonEmptyLines_ne_nil {content : List Char}
    (h : pyStrip content ≠ []) : Cointelegraph.nonEmptyLines content ≠ [] := by
  have hex : ∃ c ∈ content, pySpace c = false := by
    by_contra hall
    push_neg at hall
    refine h (pyStripPred_eq_nil_of_all fun c hc => ?_)
    cases hb : pySpace c with
    | false => exact absurd hb (hall c hc)
    | true => rfl
  obtain ⟨c, hcmem, hcsp⟩ := hex
  have hcn : c ≠ '\n' := fun hc => by rw [hc] at hcsp; simp [pySpace] at hcsp
  obtain ⟨seg, hseg, hcseg⟩ := mem_splitChar_of_mem hcmem hcn
  have hstrip : pyStrip seg ≠ [] := pyStripPred_ne_nil hcseg hcsp
  intro hnil
  have he : (pyStrip seg).isEmpty = false := by
    cases he' : (pyStrip seg).isEmpty with
    | true => exact absurd (listIsEmpty_iff.mp he') hstrip
    | false => rfl
  have hm : pyStrip seg ∈ Cointelegraph.nonEmptyLines content := by
    unfold Cointelegraph.nonEmptyLines
    apply List.mem_filter.mpr
    refine ⟨List.mem_map.mpr ⟨seg, hseg, rfl⟩, ?_⟩
    rw [he]
    rfl
  rw [hnil] at hm
  cases hm

/-! ## Claim theorems for C1 and C3 -/

/-- C1 (corrected): in `cointelegraph.py`, the title/body split of
`run_ultimate_agent` behaves as the specification-level description
`titleBodySpec`: a headline-marker line sets the title to the text after its
first colon trimmed of surrounding spaces and asterisks, provided that text
is non-empty (an empty remainder leaves the title unset and the scan
continues); with no such title the first non-empty line becomes the title and
the remaining non-empty lines, joined with blank lines, form the body.  The
two concrete examples of the claim hold for this pipeline. -/
theorem C1_title_extraction :
    Cointelegraph.extractTitleBody "Headline: Bitcoin Surges\nBody line one\nBody line two" =
      ("Bitcoin Surges", "Body line one\n\nBody line two") ∧
    Cointelegraph.extractTitleBody "First Line\nSecond Line" =
      ("First Line", "Second Line") ∧
    ∀ content : String,
      Cointelegraph.extractTitleBody content = Cointelegraph.titleBodySpec content := by
  refine ⟨by decide, by decide, fun content => ?_⟩
  unfold Cointelegraph.extractTitleBody Cointelegraph.titleBodySpec
  rw [Cointelegraph.extractTitleBodyL_eq_spec]

/-- C1 counterexample: the claim fails as stated.  In
`ultimate_crypto_agent.py` (cited by the claim) there is no headline-marker
scan, so on the claim's own first example the title is the whole first line,
not `"Bitcoin Surges"`.  In `cointelegraph.py` a marker line whose trimmed
remainder is empty does not set the title (the first-line fallback fires
instead), and the trim removes only spaces and asterisks, not tabs. -/
theorem C1_title_extraction_counterexample :
    UltimateAgent.extractTitleBody "Headline: Bitcoin Surges\nBody line one\nBody line two" =
      ("Headline: Bitcoin Surges", "Body line one\n\nBody line two") ∧
    ("Headline: Bitcoin Surges" : String) ≠ "Bitcoin Surges" ∧
    Cointelegraph.extractTitleBody "Headline: ***\nBody line" =
      ("Headline: ***", "Body line") ∧
    Cointelegraph.extractTitleBody "Headline:\tTabbed Title\nBody" =
      ("\tTabbed Title", "Body") ∧
    ("\tTabbed Title" : String) ≠ "Tabbed Title" := by
  refine ⟨by decide, by decide, by decide, by decide, by decide⟩

/-! ## Content extraction of `cointelegraph.py` (`extract_article_data`, lines 351-416) -/

namespace Cointelegraph

/-- One RSS feed entry as seen by the fallback path.  `title?`/`summary?` are
`none` when the corresponding attribute is absent (`hasattr` is false);
`summaryStripped` is the text produced by the external HTML stripper
(`BeautifulSoup(...).get_text(strip=True)`) on the summary, supplied by the
environment. -/
structure RssEntry where
  title? : Option String
  summary? : Option String
  summaryStripped : String
deriving DecidableEq

/-- The outcomes of the external calls made by `extract_article_data`.
`scrape = none` models an exception from `requests.get`/`raise_for_status`/
parsing; `scrape = some (title, content)` models a successful fetch with the
selector-extracted title and blank-line-joined paragraph content (possibly
empty).  Each element of `feeds` is the outcome for one configured RSS
source: `none` = `feedparser.parse` raised, `some none` = the feed has no
entries, `some (some e)` = its first entry is `e`. -/
structure FetchWorld where
  scrape : Option (String × String)
  feeds : List (Option (Option RssEntry))
deriving DecidableEq

/-- The record type returned by `extract_article_data`. -/
structure ArticleData where
  title : String
  content : String
  url : String
deriving DecidableEq

/-- The `try` block of `extract_article_data` (lines 362-396): an `error`
models a raised exception, including the explicit
`raise ValueError("Empty content extracted")` when no content was found. -/
def tryScrape (w : FetchWorld) (url : String) : Except String ArticleData :=
  match w.scrape with
  | none => .error "request failed"
  | some (t, c) => if c = "" then .error "Empty content extracted" else .ok ⟨t, c, url⟩

/-- The summary computed by the fallback loop body (lines 406-408):
`""` unless the entry has a truthy `summary` attribute, in which case the
HTML-stripped text. -/
def fallbackSummary (e : RssEntry) : String :=
  match e.summary? with
  | some s => if s = "" then "" else e.summaryStripped
  | none => ""

/-- `str(entry.title) if hasattr(entry, 'title') else "Untitled"`. -/
def fallbackTitle (e : RssEntry) : String := e.title?.getD "Untitled"

/-- The RSS-summary fallback loop (lines 401-416): per-feed exceptions hit
the bare `except: continue`; a feed with no entries also falls through; the
first feed with an entry returns; otherwise the final default record. -/
def rssFallback : List (Option (Option RssEntry)) → String → ArticleData
  | [], url => ⟨"Untitled", "", url⟩
  | f :: rest, url =>
    match f with
    | some (some e) => ⟨fallbackTitle e, fallbackSummary e, url⟩
    | _ => rssFallback rest url

/-- `extract_article_data`: the whole `try`/`except` structure.  Every
exception of the `try` block lands in the handler, which runs the fallback
loop; the function is total (never raises) by construction of this match. -/
def extract_article_data (w : FetchWorld) (url : String) : ArticleData :=
  match tryScrape w url with
  | .ok a => a
  | .error _ => rssFallback w.feeds url

theorem rssFallback_url (feeds : List (Option (Option RssEntry))) (url : String) :
    (rssFallback feeds url).url = url := by
  induction feeds with
  | nil => rfl
  | cons f rest ih =>
    match f with
    | some (some e) => rfl
    | some none => exact ih
    | none => exact ih

theorem rssFallback_allFail (feeds : List (Option (Option RssEntry))) (url : String)
    (h : ∀ f ∈ feeds, f = none ∨ f = some none) :
    rssFallback feeds url = ⟨"Untitled", "", url⟩ := by
  induction feeds with
  | nil => rfl
  | cons f rest ih =>
    rcases h f (List.mem_cons_self _ _) with rfl | rfl
    · exact ih fun g hg => h g (List.mem_cons_of_mem _ hg)
    · exact ih fun g hg => h g (List.mem_cons_of_mem _ hg)

end Cointelegraph

/-- C2: `extract_article_data` is total over every outcome of the external
HTTP and feed calls (the function of the embedding returns an `ArticleData`
for every `FetchWorld`, mirroring the all-catching `try`/`except` structure),
the returned record always carries the input URL, and in the worst case —
scrape raised or produced empty content, and every feed of the fallback
either raised or had no entries — the result is
`{title := "Untitled", content := "", url := url}`. -/
theorem C2_extract_never_raises (w : Cointelegraph.FetchWorld) (url : String) :
    (Cointelegraph.extract_article_data w url).url = url ∧
    ((w.scrape = none ∨ ∃ t, w.scrape = some (t, "")) →
      (∀ f ∈ w.feeds, f = none ∨ f = some none) →
      Cointelegraph.extract_article_data w url = ⟨"Untitled", "", url⟩) := by
  constructor
  · unfold Cointelegraph.extract_article_data Cointelegraph.tryScrape
    match hs : w.scrape with
    | none => exact Cointelegraph.rssFallback_url w.feeds url
    | some (t, c) =>
      dsimp only
      by_cases hc : c = ""
      · rw [if_pos hc]
        exact Cointelegraph.rssFallback_url w.feeds url
      · rw [if_neg hc]
  · intro hscrape hfeeds
    unfold Cointelegraph.extract_article_data Cointelegraph.tryScrape
    rcases hscrape with hs | ⟨t, hs⟩
    · rw [hs]
      exact Cointelegraph.rssFallback_allFail w.feeds url hfeeds
    · rw [hs]
      simp only [if_pos rfl]
      exact Cointelegraph.rssFallback_allFail w.feeds url hfeeds

/-- Witness for C2 at a concrete worst-case world: the fetch raises and all
three configured feeds fail or are empty. -/
theorem C2_extract_never_raises_witness :
    (Cointelegraph.extract_article_data ⟨none, [none, some none, none]⟩ "https://x.io/a").url =
      "https://x.io/a" ∧
    Cointelegraph.extract_article_data ⟨none, [none, some none, none]⟩ "https://x.io/a" =
      ⟨"Untitled", "", "https://x.io/a"⟩ := by
  refine ⟨(C2_extract_never_raises _ _).1, ?_⟩
  exact (C2_extract_never_raises ⟨none, [none, some none, none]⟩ "https://x.io/a").2
    (Or.inl rfl) (by decide)

/-! ## C3: the extracted title is non-empty for non-blank content -/

theorem Cointelegraph.extractTitleBodyL_fst_ne_nil {content : List Char}
    (h : pyStrip content ≠ []) : (Cointelegraph.extractTitleBodyL content).1 ≠ [] := by
  unfold Cointelegraph.extractTitleBodyL
  dsimp only
  by_cases ht : ((Cointelegraph.nonEmptyLines content).foldl Cointelegraph.tbStep ([], [])).1.isEmpty = true
  · rw [if_pos ht]
    cases hl : Cointelegraph.nonEmptyLines content with
    | nil => exact absurd hl (Cointelegraph.nonEmptyLines_ne_nil h)
    | cons l rest =>
      dsimp only
      have hmem : l ∈ Cointelegraph.nonEmptyLines content := by
        rw [hl]; exact List.mem_cons_self _ _
      have hne : (!l.isEmpty) = true := (List.mem_filter.mp hmem).2
      intro hc
      rw [hc] at hne
      simp at hne
  · rw [if_neg ht]
    intro hc
    dsimp only at hc
    exact ht (by simp [hc])

/-- C3: whenever the generated content is non-blank (`content.strip()` is
truthy, so the run proceeds to title extraction), the extracted title of
`cointelegraph.py`'s pipeline is a non-empty string: either a non-empty
headline payload, or the first non-empty line, which is non-empty by the
line filter. -/
theorem C3_generated_title_nonempty (content : String)
    (h : pyStripStr content ≠ "") :
    (Cointelegraph.extractTitleBody content).1 ≠ "" := by
  have hL : pyStrip content.data ≠ [] := by
    intro hc
    apply h
    unfold pyStripStr
    rw [hc]
  have hne := Cointelegraph.extractTitleBodyL_fst_ne_nil hL
  unfold Cointelegraph.extractTitleBody
  dsimp only
  intro hc
  apply hne
  simpa using congrArg String.data hc


/-- Witness for C3 at a concrete generated content. -/
theorem C3_generated_title_nonempty_witness :
    pyStripStr "Headline: Bitcoin Surges\nBody" ≠ "" ∧
    (Cointelegraph.extractTitleBody "Headline: Bitcoin Surges\nBody").1 ≠ "" :=
  ⟨by decide, C3_generated_title_nonempty _ (by decide)⟩

/-! ## Generation orchestration of `cointelegraph.py`
(`generate_advanced_content`, lines 494-553) -/

namespace Cointelegraph

/-- Stage-1 line normalisation (lines 515-522): strip the line; drop a single
leading `"# "`; rebuild a `"## "` heading (an identity on its input, kept as
written). -/
def cleanLine (line : List Char) : List Char :=
  if "# ".data.isPrefixOf line then line.drop 2
  else if "## ".data.isPrefixOf line then "## ".data ++ line.drop 3
  else line

/-- Stage-1 post-processing (lines 511-524): strip lines, drop blank ones,
normalise heading markers, rejoin with blank-line separation. -/
def cleanContent (content : List Char) : List Char :=
  interL "\n\n".data
    ((((splitChar '\n' content).map pyStrip).filter (fun l => !l.isEmpty)).map cleanLine)

/-- The stage-1 draft as a function of the first completion call's message
content (`none` models a `None` content):
`content = response.choices[0].message.content.strip() if ... else ""`,
then the clean-up loop. -/
def stage1Draft (r1 : Option String) : String :=
  ⟨cleanContent (match r1 with
    | some s => if s = "" then [] else pyStrip s.data
    | none => [])⟩

/-- The final content selection of `generate_advanced_content` (line 552):
`final_content = response2.choices[0].message.content.strip() if
response2.choices[0].message.content else content`. -/
def generate_advanced_content (r1 r2 : Option String) : String :=
  match r2 with
  | some s => if s = "" then stage1Draft r1 else pyStripStr s
  | none => stage1Draft r1

end Cointelegraph

/-- C4 (corrected): for every outcome of the second (paraphrase) completion
call, a truthy returned text replaces the stage-1 draft by its
whitespace-stripped form, and a `None` or empty-string return leaves the
stage-1 draft as the final content. -/
theorem C4_stage2_selection :
    (∀ (r1 : Option String) (s : String), s ≠ "" →
      Cointelegraph.generate_advanced_content r1 (some s) = pyStripStr s) ∧
    (∀ r1 : Option String,
      Cointelegraph.generate_advanced_content r1 none = Cointelegraph.stage1Draft r1 ∧
      Cointelegraph.generate_advanced_content r1 (some "") = Cointelegraph.stage1Draft r1) := by
  refine ⟨fun r1 s hs => ?_, fun r1 => ⟨rfl, ?_⟩⟩
  · unfold Cointelegraph.generate_advanced_content
    dsimp only
    rw [if_neg hs]
  · unfold Cointelegraph.generate_advanced_content
    dsimp only
    rw [if_pos rfl]

/-- Witness for C4: a concrete non-empty second-stage response. -/
theorem C4_stage2_selection_witness :
    (" Stage two text " : String) ≠ "" ∧
    Cointelegraph.generate_advanced_content (some "Stage one draft") (some " Stage two text ") =
      pyStripStr " Stage two text " :=
  ⟨by decide, C4_stage2_selection.1 (some "Stage one draft") " Stage two text " (by decide)⟩

/-- C4 counterexample: the claim as stated fails.  A non-empty second-stage
response with surrounding whitespace does not itself become the final
content (its stripped form does), and a whitespace-only response neither
survives verbatim nor retains the stage-1 draft — the final content becomes
empty. -/
theorem C4_stage2_selection_counterexample :
    Cointelegraph.generate_advanced_content (some "Stage one draft") (some " Stage two text ") =
      "Stage two text" ∧
    ("Stage two text" : String) ≠ " Stage two text " ∧
    Cointelegraph.generate_advanced_content (some "Stage one draft") (some " ") = "" ∧
    ("" : String) ≠ "Stage one draft" := by
  refine ⟨by decide, by decide, by decide, by decide⟩

/-! ## Quality score (`calculate_quality_score`, identical in
`cointelegraph.py` lines 158-167 and `ultimate_crypto_agent.py` lines
143-152).  Python floats are modelled as exact rationals; `round(x, 2)` is
modelled by round-half-to-even at two decimal places, as Python rounds. -/

/-- Python `round` to an integer: round half to even. -/
def pyRoundHalfEven (q : ℚ) : ℤ :=
  let f := ⌊q⌋
  let r := q - f
  if r < 1/2 then f
  else if 1/2 < r then f + 1
  else if 2 ∣ f then f else f + 1

/-- Python `round(x, 2)`. -/
def pyRound2 (q : ℚ) : ℚ := (pyRoundHalfEven (q * 100) : ℚ) / 100

/-- `calculate_quality_score`: clamp the Flesch score into `[0, 100]`,
rescale variety and sentiment to a 0-100 range, take the fixed weighted
average and round to two decimals. -/
def calculate_quality_score (flesch_score sentence_variety sentiment_score : ℚ) : ℚ :=
  let flesch_norm := max 0 (min 100 flesch_score)
  let variety_norm := sentence_variety * 100
  let sentiment_norm := (sentiment_score + 1) * 50
  pyRound2 (flesch_norm * 0.4 + variety_norm * 0.3 + sentiment_norm * 0.3)

/-- The claim's formula, written with an explicit clamp as in the spec. -/
def clampQ (x lo hi : ℚ) : ℚ := max lo (min hi x)

/-- Specification-side quality-score formula. -/
def qualityScoreSpec (f v s : ℚ) : ℚ :=
  pyRound2 (clampQ f 0 100 * 0.4 + v * 100 * 0.3 + (s + 1) * 50 * 0.3)

theorem pyRoundHalfEven_le (q : ℚ) : (pyRoundHalfEven q : ℚ) ≤ q + 1/2 := by
  unfold pyRoundHalfEven
  dsimp only
  split
  · calc ((⌊q⌋ : ℤ) : ℚ) ≤ q := Int.floor_le q
      _ ≤ q + 1/2 := by linarith
  · rename_i h1
    push_neg at h1
    split
    · push_cast
      have := Int.floor_le q
      linarith
  -- the tie branch: r = 1/2 exactly
    · rename_i h2
      push_neg at h2
      split
      · calc ((⌊q⌋ : ℤ) : ℚ) ≤ q := Int.floor_le q
          _ ≤ q + 1/2 := by linarith
      · push_cast
        have := Int.floor_le q
        linarith

theorem le_pyRoundHalfEven (q : ℚ) : (⌊q⌋ : ℤ) ≤ pyRoundHalfEven q := by
  unfold pyRoundHalfEven
  dsimp only
  split
  · exact le_refl _
  · split
    · omega
    · split
      · exact le_refl _
      · omega

theorem pyRound2_bounds {x : ℚ} (h0 : 0 ≤ x) (h1 : x ≤ 100) :
    0 ≤ pyRound2 x ∧ pyRound2 x ≤ 100 := by
  have hl : (0 : ℤ) ≤ pyRoundHalfEven (x * 100) := by
    have hf : (0 : ℤ) ≤ ⌊x * 100⌋ := by
      have : (0 : ℚ) ≤ x * 100 := by linarith
      exact Int.floor_nonneg.mpr this
    exact le_trans hf (le_pyRoundHalfEven _)
  have hu : pyRoundHalfEven (x * 100) ≤ 10000 := by
    have h := pyRoundHalfEven_le (x * 100)
    have : ((pyRoundHalfEven (x * 100) : ℤ) : ℚ) ≤ 10000 + 1/2 := by linarith
    have hlt : ((pyRoundHalfEven (x * 100) : ℤ) : ℚ) < 10001 := by linarith
    exact_mod_cast Int.lt_add_one_iff.mp (by exact_mod_cast hlt)
  constructor
  · unfold pyRound2
    exact div_nonneg (by exact_mod_cast hl) (by norm_num)
  · unfold pyRound2
    rw [div_le_iff₀ (by norm_num : (0:ℚ) < 100)]
    calc ((pyRoundHalfEven (x * 100) : ℤ) : ℚ) ≤ 10000 := by exact_mod_cast hu
      _ = 100 * 100 := by norm_num

/-- C5: the quality score equals the spec's formula
`round(clamp(flesch, 0, 100)*0.4 + variety*100*0.3 + (sentiment+1)*50*0.3, 2)`
for all inputs; the spec's concrete example evaluates to 68; and for
`variety ∈ [0,1]`, `sentiment ∈ [-1,1]` (and any Flesch score) the result
lies in `[0, 100]`. -/
theorem C5_quality_score :
    (∀ f v s : ℚ, calculate_quality_score f v s = qualityScoreSpec f v s) ∧
    calculate_quality_score 65 0.8 0.2 = 68 ∧
    (∀ f v s : ℚ, 0 ≤ v → v ≤ 1 → -1 ≤ s → s ≤ 1 →
      0 ≤ calculate_quality_score f v s ∧ calculate_quality_score f v s ≤ 100) := by
  refine ⟨fun f v s => rfl, ?_, fun f v s hv0 hv1 hs0 hs1 => ?_⟩
  · have harg : (max 0 (min 100 (65:ℚ))) * 0.4 + (0.8:ℚ) * 100 * 0.3 + ((0.2:ℚ) + 1) * 50 * 0.3 =
        68 := by norm_num
    unfold calculate_quality_score
    dsimp only
    rw [harg]
    unfold pyRound2 pyRoundHalfEven
    dsimp only
    have h2 : (68 : ℚ) * 100 = ((6800 : ℤ) : ℚ) := by norm_num
    rw [h2, Int.floor_intCast]
    rw [if_pos (show ((6800:ℤ):ℚ) - ((6800:ℤ):ℚ) < 1/2 by norm_num)]
    norm_num
  unfold calculate_quality_score
  dsimp only
  have hfn0 : (0 : ℚ) ≤ max 0 (min 100 f) := le_max_left _ _
  have hfn1 : max 0 (min 100 f) ≤ 100 := max_le (by norm_num) (min_le_left _ _)
  apply pyRound2_bounds
  · nlinarith [hfn0, hfn1]
  · nlinarith [hfn0, hfn1]

/-- Witness for C5: the range bound applied at a concrete input. -/
theorem C5_quality_score_witness :
    ((0 : ℚ) ≤ 1/2 ∧ (1/2 : ℚ) ≤ 1 ∧ (-1 : ℚ) ≤ 0 ∧ (0 : ℚ) ≤ 1) ∧
    (0 ≤ calculate_quality_score 50 (1/2) 0 ∧ calculate_quality_score 50 (1/2) 0 ≤ 100) :=
  ⟨⟨by norm_num, by norm_num, by norm_num, by norm_num⟩,
    C5_quality_score.2.2 50 (1/2) 0 (by norm_num) (by norm_num) (by norm_num) (by norm_num)⟩

/-! ## Reading-time estimates.  `cointelegraph.py` line 583 and
`ultimate_crypto_agent.py` line 573:
`max(MIN_READING_TIME, min(MAX_READING_TIME, word_count // 200))`;
`temp/cointelegraph1.py` line 353: `max(MIN_READING_TIME, word_count // 200)`
with no upper bound. -/

namespace Cointelegraph

def MIN_READING_TIME : ℕ := 8

def MAX_READING_TIME : ℕ := 12

/-- Reading time of `export_advanced_html` as a function of the word count
(`word_count = len(content.split())`). -/
def reading_time (word_count : ℕ) : ℕ :=
  max MIN_READING_TIME (min MAX_READING_TIME (word_count / 200))

end Cointelegraph

namespace CointelegraphTemp

def MIN_READING_TIME : ℕ := 7

/-- Reading time of `export_seo_optimized_html` in `temp/cointelegraph1.py`:
only the lower bound is applied, there is no `MAX_READING_TIME` in that
file. -/
def reading_time (word_count : ℕ) : ℕ :=
  max MIN_READING_TIME (word_count / 200)

end CointelegraphTemp

/-- Python `str.split()` (no argument): split on runs of whitespace,
discarding empty pieces. -/
def pyWords (l : List Char) : List (List Char) :=
  let st := l.foldr
    (fun c st =>
      if pySpace c then (([] : List Char), if st.1.isEmpty then st.2 else st.1 :: st.2)
      else (c :: st.1, st.2))
    ([], [])
  if st.1.isEmpty then st.2 else st.1 :: st.2

/-- `len(content.split())`. -/
def wordCount (s : String) : ℕ := (pyWords s.data).length

/-- C6 (corrected): in `cointelegraph.py` (and identically in
`ultimate_crypto_agent.py`) the reading time is the word count divided by
200 and clamped to `[8, 12]` — below-minimum values become the minimum,
above-maximum values the maximum, in-range values pass through — and a
100-word body yields 8.  In `temp/cointelegraph1.py` only the lower bound
(7) is applied; there is no upper clamp. -/
theorem C6_reading_time_clamp :
    (∀ wc : ℕ, wc / 200 < 8 → Cointelegraph.reading_time wc = 8) ∧
    (∀ wc : ℕ, 8 ≤ wc / 200 → wc / 200 ≤ 12 → Cointelegraph.reading_time wc = wc / 200) ∧
    (∀ wc : ℕ, 12 < wc / 200 → Cointelegraph.reading_time wc = 12) ∧
    Cointelegraph.reading_time 100 = 8 ∧
    (∀ content : String,
      Cointelegraph.reading_time (wordCount content) =
        max Cointelegraph.MIN_READING_TIME
          (min Cointelegraph.MAX_READING_TIME (wordCount content / 200))) ∧
    (∀ wc : ℕ, CointelegraphTemp.reading_time wc = max 7 (wc / 200)) := by
  refine ⟨fun wc h => ?_, fun wc h1 h2 => ?_, fun wc h => ?_, by decide,
    fun content => rfl, fun wc => rfl⟩
  · unfold Cointelegraph.reading_time Cointelegraph.MIN_READING_TIME
      Cointelegraph.MAX_READING_TIME
    omega
  · unfold Cointelegraph.reading_time Cointelegraph.MIN_READING_TIME
      Cointelegraph.MAX_READING_TIME
    omega
  · unfold Cointelegraph.reading_time Cointelegraph.MIN_READING_TIME
      Cointelegraph.MAX_READING_TIME
    omega

/-- Witness for C6: the spec's own example, word count 100. -/
theorem C6_reading_time_clamp_witness :
    100 / 200 < 8 ∧ Cointelegraph.reading_time 100 = 8 :=
  ⟨by decide, C6_reading_time_clamp.1 100 (by decide)⟩

/-- C6 counterexample: the claim's upper clamp fails for the exporter of
`temp/cointelegraph1.py` (cited by the claim): a 4000-word body yields a
reading time of 20, not the claimed maximum (12 under the configured
maximum of the other two files; that file configures no maximum at all). -/
theorem C6_reading_time_clamp_counterexample :
    CointelegraphTemp.reading_time 4000 = 20 ∧
    Cointelegraph.reading_time 4000 = 12 ∧
    (20 : ℕ) ≠ 12 := by
  refine ⟨by decide, by decide, by decide⟩

/-! ## Meta title/description truncation of `export_advanced_html`
(`cointelegraph.py` lines 564-573; the identical computation appears in
`ultimate_crypto_agent.py` lines 559-566, applied to `title` itself). -/

namespace Cointelegraph

/-- `title = title.strip(); meta_title = title[:57] + "..." if len(title) > 60
else title`. -/
def metaTitleOf (title : String) : String :=
  let t := pyStripStr title
  if t.data.length > 60 then ⟨t.data.take 57⟩ ++ "..." else t

/-- `meta_description = meta_description.strip()`, truncated to
`[:157] + "..."` when longer than 160. -/
def metaDescriptionOf (d : String) : String :=
  let m := pyStripStr d
  if m.data.length > 160 then ⟨m.data.take 157⟩ ++ "..." else m

end Cointelegraph

theorem stringMk_append_data (a b : List Char) :
    ((⟨a⟩ : String) ++ ⟨b⟩).data = a ++ b := rfl

/-- C7: after whitespace stripping, a title longer than 60 characters is
truncated to its first 57 characters plus `"..."` (60 characters total) and
a description longer than 160 characters to its first 157 characters plus
`"..."` (160 total); shorter ones pass through unchanged. -/
theorem C7_truncation :
    (∀ t : String, (pyStripStr t).data.length > 60 →
      Cointelegraph.metaTitleOf t = (⟨(pyStripStr t).data.take 57⟩ : String) ++ "..." ∧
      (Cointelegraph.metaTitleOf t).data.length = 60) ∧
    (∀ t : String, (pyStripStr t).data.length ≤ 60 →
      Cointelegraph.metaTitleOf t = pyStripStr t) ∧
    (∀ d : String, (pyStripStr d).data.length > 160 →
      Cointelegraph.metaDescriptionOf d = (⟨(pyStripStr d).data.take 157⟩ : String) ++ "..." ∧
      (Cointelegraph.metaDescriptionOf d).data.length = 160) ∧
    (∀ d : String, (pyStripStr d).data.length ≤ 160 →
      Cointelegraph.metaDescriptionOf d = pyStripStr d) := by
  refine ⟨fun t h => ⟨?_, ?_⟩, fun t h => ?_, fun d h => ⟨?_, ?_⟩, fun d h => ?_⟩
  · unfold Cointelegraph.metaTitleOf
    dsimp only
    rw [if_pos h]
  · unfold Cointelegraph.metaTitleOf
    dsimp only
    have h57 : 57 ≤ (pyStripStr t).data.length := by omega
    rw [if_pos h, stringMk_append_data, List.length_append, List.length_take,
      min_eq_left h57]
    rfl
  · unfold Cointelegraph.metaTitleOf
    dsimp only
    rw [if_neg (by omega)]
  · unfold Cointelegraph.metaDescriptionOf
    dsimp only
    rw [if_pos h]
  · unfold Cointelegraph.metaDescriptionOf
    dsimp only
    have h157 : 157 ≤ (pyStripStr d).data.length := by omega
    rw [if_pos h, stringMk_append_data, List.length_append, List.length_take,
      min_eq_left h157]
    rfl
  · unfold Cointelegraph.metaDescriptionOf
    dsimp only
    rw [if_neg (by omega)]

set_option maxRecDepth 10000 in
/-- Witness for C7: a 70-character title and a 200-character description. -/
theorem C7_truncation_witness :
    (pyStripStr ⟨List.replicate 70 'a'⟩).data.length > 60 ∧
    (Cointelegraph.metaTitleOf ⟨List.replicate 70 'a'⟩).data.length = 60 ∧
    (pyStripStr ⟨List.replicate 200 'b'⟩).data.length > 160 ∧
    (Cointelegraph.metaDescriptionOf ⟨List.replicate 200 'b'⟩).data.length = 160 :=
  ⟨by decide, (C7_truncation.1 ⟨List.replicate 70 'a'⟩ (by decide)).2, by decide,
    (C7_truncation.2.2.1 ⟨List.replicate 200 'b'⟩ (by decide)).2⟩

/-! ## Multi-source fetch of `cointelegraph.py`
(`get_latest_articles_from_multiple_sources`, lines 323-349) -/

namespace Cointelegraph

/-- A configured RSS source (`RSS_SOURCES` entries). -/
structure FeedSource where
  name : String
  url : String
  weight : ℚ
deriving DecidableEq

/-- The `RSS_SOURCES` configuration (lines 60-64). -/
def RSS_SOURCES : List FeedSource :=
  [⟨"Cointelegraph", "https://cointelegraph.com/rss", 1⟩,
   ⟨"CoinDesk", "https://www.coindesk.com/arc/outboundfeeds/rss/", 0.8⟩,
   ⟨"Decrypt", "https://decrypt.co/feed", 0.7⟩]

/-- A feed entry; each field is `none` when the attribute is absent
(`hasattr` false). -/
structure FeedEntry where
  title? : Option String
  link? : Option String
  summary? : Option String
  published? : Option String
deriving DecidableEq

/-- The article record built per entry (lines 332-339). -/
structure Article where
  title : String
  url : String
  summary : String
  source : String
  weight : ℚ
  published : String
deriving DecidableEq

/-- Field defaulting of the per-entry record: `entry.title if hasattr(entry,
'title') else "Untitled"`, and likewise for the other fields. -/
def articleOf (src : FeedSource) (e : FeedEntry) : Article :=
  ⟨e.title?.getD "Untitled", e.link?.getD "", e.summary?.getD "", src.name,
    src.weight, e.published?.getD ""⟩

/-- The gathering loop: for each source, on parse success take the first 3
entries (`feed.entries[:3]`) and append their records; on a raised parse
(`none`) skip the feed and continue. -/
def gatherArticles : List (FeedSource × Option (List FeedEntry)) → List Article
  | [] => []
  | (src, o) :: rest =>
    (match o with
     | some entries => (entries.take 3).map (articleOf src)
     | none => []) ++ gatherArticles rest

/-- Stable insertion for descending weight: the new element goes after every
already-placed element of greater-or-equal weight — the unique behaviour of
any stable sort, hence of Python's `list.sort(key=..., reverse=True)`. -/
def insertByWeight (a : Article) : List Article → List Article
  | [] => [a]
  | b :: l => if b.weight ≤ a.weight then a :: b :: l else b :: insertByWeight a l

/-- Stable sort by descending source weight, modelling
`all_articles.sort(key=lambda x: x["weight"], reverse=True)`. -/
def sortByWeightDesc : List Article → List Article
  | [] => []
  | a :: l => insertByWeight a (sortByWeightDesc l)

/-- `get_latest_articles_from_multiple_sources`, as a function of the
per-source feed outcomes. -/
def get_latest_articles (outcomes : List (Option (List FeedEntry))) : List Article :=
  sortByWeightDesc (gatherArticles (RSS_SOURCES.zip outcomes))

/-- Descending-weight order between articles. -/
def weightGE (x y : Article) : Prop := y.weight ≤ x.weight

theorem mem_insertByWeight {x a : Article} :
    ∀ {l : List Article}, x ∈ insertByWeight a l → x = a ∨ x ∈ l := by
  intro l
  induction l with
  | nil => intro h; simpa [insertByWeight] using h
  | cons b l ih =>
    intro h
    unfold insertByWeight at h
    split at h
    · rcases List.mem_cons.mp h with rfl | h'
      · exact Or.inl rfl
      · exact Or.inr h'
    · rcases List.mem_cons.mp h with rfl | h'
      · exact Or.inr (List.mem_cons_self _ _)
      · rcases ih h' with rfl | h''
        · exact Or.inl rfl
        · exact Or.inr (List.mem_cons_of_mem _ h'')

theorem pairwise_insertByWeight {a : Article} :
    ∀ {l : List Article}, List.Pairwise weightGE l →
      List.Pairwise weightGE (insertByWeight a l) := by
  intro l
  induction l with
  | nil => intro _; simp [insertByWeight, List.pairwise_singleton]
  | cons b l ih =>
    intro h
    obtain ⟨hb, hl⟩ := List.pairwise_cons.mp h
    unfold insertByWeight
    split
    · rename_i hba
      refine List.pairwise_cons.mpr ⟨?_, h⟩
      intro y hy
      rcases List.mem_cons.mp hy with rfl | hy'
      · exact hba
      · exact le_trans (hb y hy') hba
    · rename_i hba
      push_neg at hba
      refine List.pairwise_cons.mpr ⟨?_, ih hl⟩
      intro y hy
      rcases mem_insertByWeight hy with rfl | hy'
      · exact le_of_lt hba
      · exact hb y hy'

theorem sorted_sortByWeightDesc (l : List Article) :
    List.Pairwise weightGE (sortByWeightDesc l) := by
  induction l with
  | nil => exact List.Pairwise.nil
  | cons a l ih => exact pairwise_insertByWeight ih

theorem length_insertByWeight (a : Article) :
    ∀ l : List Article, (insertByWeight a l).length = l.length + 1 := by
  intro l
  induction l with
  | nil => rfl
  | cons b l ih =>
    unfold insertByWeight
    split
    · rfl
    · simpa using ih

theorem length_sortByWeightDesc (l : List Article) :
    (sortByWeightDesc l).length = l.length := by
  induction l with
  | nil => rfl
  | cons a l ih =>
    unfold sortByWeightDesc
    rw [length_insertByWeight, ih]
    rfl

theorem filter_insertByWeight (w : ℚ) (a : Article) :
    ∀ l : List Article,
      (insertByWeight a l).filter (fun x => decide (x.weight = w)) =
        (a :: l).filter (fun x => decide (x.weight = w)) := by
  intro l
  induction l with
  | nil => rfl
  | cons b l ih =>
    unfold insertByWeight
    split
    · rfl
    · rename_i hba
      push_neg at hba
      by_cases haw : a.weight = w
      · have hbw : ¬ b.weight = w := by
          intro hbw
          rw [hbw, ← haw] at hba
          exact absurd hba (lt_irrefl _)
        simp only [List.filter_cons]
        rw [ih]
        simp [List.filter_cons, haw, hbw]
      · simp only [List.filter_cons]
        rw [ih]
        simp [List.filter_cons, haw]

theorem filter_sortByWeightDesc (w : ℚ) (l : List Article) :
    (sortByWeightDesc l).filter (fun x => decide (x.weight = w)) =
      l.filter (fun x => decide (x.weight = w)) := by
  induction l with
  | nil => rfl
  | cons a l ih =>
    unfold sortByWeightDesc
    rw [filter_insertByWeight]
    simp only [List.filter_cons]
    rw [ih]

theorem gatherArticles_ne_nil :
    ∀ {pairs : List (FeedSource × Option (List FeedEntry))},
      (∃ p ∈ pairs, ∃ es, p.2 = some es ∧ es ≠ []) → gatherArticles pairs ≠ [] := by
  intro pairs
  induction pairs with
  | nil => rintro ⟨p, hp, _⟩; cases hp
  | cons q rest ih =>
    rintro ⟨p, hp, es, hes, hne⟩
    obtain ⟨src, o⟩ := q
    rcases List.mem_cons.mp hp with rfl | hp'
    · simp only at hes
      subst hes
      unfold gatherArticles
      cases es with
      | nil => exact absurd rfl hne
      | cons e es' => simp
    · unfold gatherArticles
      intro hc
      rcases List.append_eq_nil.mp hc with ⟨_, h2⟩
      exact ih ⟨p, hp', es, hes, hne⟩ h2

end Cointelegraph

/-- C8: per-feed fetch failures are skipped without affecting the rest; at
most 3 articles are gathered per feed, with missing fields defaulted
(title to "Untitled", link and summary to ""); the returned list is sorted
by descending source weight with a stable sort (articles of equal weight
keep the gathering order, stated as filter-invariance per weight); and if at
least one feed parses with a non-empty entry list the result is
non-empty. -/
theorem C8_source_fetcher :
    (∀ (src : Cointelegraph.FeedSource)
        (rest : List (Cointelegraph.FeedSource × Option (List Cointelegraph.FeedEntry))),
      Cointelegraph.gatherArticles ((src, none) :: rest) =
        Cointelegraph.gatherArticles rest) ∧
    (∀ pairs : List (Cointelegraph.FeedSource × Option (List Cointelegraph.FeedEntry)),
      (Cointelegraph.gatherArticles pairs).length ≤ 3 * pairs.length) ∧
    (∀ (src : Cointelegraph.FeedSource) (e : Cointelegraph.FeedEntry),
      (e.title? = none → (Cointelegraph.articleOf src e).title = "Untitled") ∧
      (e.link? = none → (Cointelegraph.articleOf src e).url = "") ∧
      (e.summary? = none → (Cointelegraph.articleOf src e).summary = "")) ∧
    (∀ outcomes : List (Option (List Cointelegraph.FeedEntry)),
      List.Pairwise Cointelegraph.weightGE (Cointelegraph.get_latest_articles outcomes)) ∧
    (∀ (outcomes : List (Option (List Cointelegraph.FeedEntry))) (w : ℚ),
      (Cointelegraph.get_latest_articles outcomes).filter (fun x => decide (x.weight = w)) =
        (Cointelegraph.gatherArticles (Cointelegraph.RSS_SOURCES.zip outcomes)).filter
          (fun x => decide (x.weight = w))) ∧
    (∀ outcomes : List (Option (List Cointelegraph.FeedEntry)),
      (∃ p ∈ Cointelegraph.RSS_SOURCES.zip outcomes, ∃ es, p.2 = some es ∧ es ≠ []) →
      Cointelegraph.get_latest_articles outcomes ≠ []) := by
  refine ⟨fun src rest => rfl, fun pairs => ?_,
    fun src e => ⟨fun h => by simp [Cointelegraph.articleOf, h],
      fun h => by simp [Cointelegraph.articleOf, h],
      fun h => by simp [Cointelegraph.articleOf, h]⟩,
    fun outcomes => Cointelegraph.sorted_sortByWeightDesc _,
    fun outcomes w => Cointelegraph.filter_sortByWeightDesc w _,
    fun outcomes h hc => ?_⟩
  · induction pairs with
    | nil => simp [Cointelegraph.gatherArticles]
    | cons q rest ih =>
      obtain ⟨src, o⟩ := q
      unfold Cointelegraph.gatherArticles
      rw [List.length_append]
      have h1 : (match o with
          | some entries => (entries.take 3).map (Cointelegraph.articleOf src)
          | none => []).length ≤ 3 := by
        cases o with
        | none => simp
        | some entries =>
          simp only [List.length_map, List.length_take]
          omega
      have h2 : 3 * ((src, o) :: rest).length = 3 * rest.length + 3 := by
        simp [List.length_cons]
        ring
      omega
  · apply Cointelegraph.gatherArticles_ne_nil h
    apply List.eq_nil_of_length_eq_zero
    rw [← Cointelegraph.length_sortByWeightDesc]
    rw [show Cointelegraph.sortByWeightDesc
        (Cointelegraph.gatherArticles (Cointelegraph.RSS_SOURCES.zip outcomes)) =
        Cointelegraph.get_latest_articles outcomes from rfl]
    rw [hc]
    rfl

/-- Witness for C8: one reachable feed with a single entry, the second feed
raising, the third empty. -/
theorem C8_source_fetcher_witness :
    (∃ p ∈ Cointelegraph.RSS_SOURCES.zip
        ([some [⟨some "T", some "L", some "S", some "P"⟩], none, some []] :
          List (Option (List Cointelegraph.FeedEntry))),
      ∃ es, p.2 = some es ∧ es ≠ []) ∧
    Cointelegraph.get_latest_articles
      [some [⟨some "T", some "L", some "S", some "P"⟩], none, some []] ≠ [] := by
  have hyp : ∃ p ∈ Cointelegraph.RSS_SOURCES.zip
      ([some [⟨some "T", some "L", some "S", some "P"⟩], none, some []] :
        List (Option (List Cointelegraph.FeedEntry))),
      ∃ es, p.2 = some es ∧ es ≠ [] :=
    ⟨(⟨"Cointelegraph", "https://cointelegraph.com/rss", 1⟩,
        some [⟨some "T", some "L", some "S", some "P"⟩]),
      List.mem_cons_self _ _,
      [⟨some "T", some "L", some "S", some "P"⟩], rfl, List.cons_ne_nil _ _⟩
  exact ⟨hyp, C8_source_fetcher.2.2.2.2.2 _ hyp⟩

/-! ## Prompt builder of `cointelegraph.py` (`build_advanced_prompt`,
lines 421-492).  The numeric format specifiers `{x:,.2f}` and `{x:+.2f}` are
modelled on the rational number model of Python floats: round half to even
at two decimals, digits grouped in threes by commas for the former, an
explicit sign for the latter. -/

/-- Insert a comma after every third digit, processing least-significant
digit first. -/
def commaRev : List Char → ℕ → List Char
  | [], _ => []
  | [d], _ => [d]
  | d :: ds, k =>
    if (k + 1) % 3 = 0 then d :: ',' :: commaRev ds (k + 1)
    else d :: commaRev ds (k + 1)

/-- Thousands grouping of a digit string (most significant first). -/
def groupComma (ds : List Char) : List Char := (commaRev ds.reverse 0).reverse

/-- Two decimal digits of a value `< 100`. -/
def twoDigits (m : ℕ) : List Char :=
  [Char.ofNat (48 + m / 10), Char.ofNat (48 + m % 10)]

/-- Model of the Python format `{x:,.2f}`. -/
def formatComma2 (q : ℚ) : String :=
  let cents := pyRoundHalfEven (q * 100)
  let sign : List Char := if cents < 0 then ['-'] else []
  let n := cents.natAbs
  ⟨sign ++ groupComma (Nat.toDigits 10 (n / 100)) ++ '.' :: twoDigits (n % 100)⟩

/-- Model of the Python format `{x:+.2f}`. -/
def formatSigned2 (q : ℚ) : String :=
  let cents := pyRoundHalfEven (q * 100)
  let sign : List Char := if cents < 0 then ['-'] else ['+']
  let n := cents.natAbs
  ⟨sign ++ Nat.toDigits 10 (n / 100) ++ '.' :: twoDigits (n % 100)⟩

theorem string_data_append (a b : String) : (a ++ b).data = a.data ++ b.data := rfl

namespace Cointelegraph

/-- Per-coin market figures.  The pipeline populates both coins whenever the
market dict is non-empty, so the `.get(..., 0)` key defaults are not
modelled separately. -/
structure CoinData where
  price : ℚ
  change24h : ℚ
deriving DecidableEq

/-- The `market_data` dict when non-empty. -/
structure MarketData where
  bitcoin : CoinData
  ethereum : CoinData
deriving DecidableEq

/-- The `competitor_insights` dict when non-empty (it then always carries
its four keys, possibly with empty lists). -/
structure CompetitorInsights where
  common_topics : List String
  content_gaps : List String
  popular_angles : List String
  engagement_patterns : List String
deriving DecidableEq

/-- The `market_context` block (lines 428-437): empty for an empty/falsy
`market_data` dict, otherwise the interpolated MARKET CONTEXT text. -/
def marketContextStr : Option MarketData → String
  | none => ""
  | some md =>
    "\nMARKET CONTEXT:\n- Bitcoin: $" ++ formatComma2 md.bitcoin.price ++ " (" ++
    formatSigned2 md.bitcoin.change24h ++ "%)\n- Ethereum: $" ++
    formatComma2 md.ethereum.price ++ " (" ++ formatSigned2 md.ethereum.change24h ++
    "%)\n- Market sentiment: " ++
    (if md.bitcoin.change24h > 0 then "Bullish" else "Bearish") ++ "\n"

/-- The `competitor_context` block (lines 440-447). -/
def competitorContextStr : Option CompetitorInsights → String
  | none => ""
  | some ci =>
    "\nCOMPETITOR ANALYSIS:\n- Content gaps to address: " ++
    interS ", " (ci.content_gaps.take 3) ++
    "\n- Focus on unique angles and deep analysis\n"

def TARGET_WORD_COUNT : ℕ := 2000

/-- The prompt template text before the market block, with the keyword
slices (`keywords[:8]`, `keywords[8:15]`) and the word-count target
interpolated. -/
def promptPrefix (keywords : List String) : String :=
  "\nYou are a professional financial journalist writing for a leading global news outlet (e.g., Reuters, Bloomberg, CoinDesk). Write a comprehensive, objective, and authoritative news article or report on the topic below.\n\nSTYLE & TONE:\n- Use a formal, journalistic, and objective tone\n- Avoid casual language, slang, contractions, and rhetorical questions\n- Do not use personal anecdotes or speculation\n- Focus on facts, data, and expert analysis\n- Use clear, concise, and precise language\n- Structure the article as a news report: headline, summary (lede), body with subheadings, data, quotes from experts or sources, and a conclusion\n- Attribute information to sources where possible\n- Maintain neutrality and avoid personal opinions\n- Vary sentence structure and length, occasionally use passive voice\n- Add minor, natural imperfections typical of human writing (e.g., slightly awkward phrasing, subtle inconsistencies)\n- Integrate real quotes and attributions from recent news or official sources where possible\n\nSEO REQUIREMENTS:\n- Naturally include these keywords: " ++
  interS ", " (keywords.take 8) ++
  "\n- Sprinkle in these secondary terms: " ++
  interS ", " ((keywords.drop 8).take 7) ++
  "\n- Target: " ++ Nat.repr TARGET_WORD_COUNT ++
  " words\n- Use 4-5 H2 subheadings naturally\n- Start with a clear, informative headline\n- Begin with a concise summary paragraph (lede)\n- End with a conclusion or outlook\n\nCONTENT REQUIREMENTS:\n- Present the latest developments and context\n- Integrate relevant data and statistics\n- Include at least 3-4 specific cryptocurrency examples\n- Mention current market trends and regulatory context\n- Add risk warnings in a neutral, factual tone\n- Quote or reference industry experts or official sources if possible\n\n"

/-- The prompt template text after the competitor block, with the source
article truncated to its first 500 characters (`original_content[:500]`). -/
def promptSuffix (original_content : String) : String :=
  "\n\nIMPORTANT: Write like a professional news reporter. Start with a clear headline on the first line, then a summary paragraph, then the main article with subheadings. Do not use casual or conversational language.\n\nOriginal article context:\n" ++
  (⟨original_content.data.take 500⟩ : String) ++
  "...\n\nCreate an article that ranks well in search engines while maintaining the highest standards of journalistic integrity and professionalism, and is difficult for AI detectors to identify as machine-generated.\n"

/-- `build_advanced_prompt`: the full f-string, as the concatenation of the
fixed text with the interpolated keyword slices, optional context blocks and
truncated article body. -/
def build_advanced_prompt (original_content : String) (keywords : List String)
    (market_data : Option MarketData)
    (competitor_insights : Option CompetitorInsights) : String :=
  promptPrefix keywords ++ marketContextStr market_data ++ "\n" ++
  competitorContextStr competitor_insights ++ promptSuffix original_content

/-- `original_content[:500]`. -/
def take500 (s : String) : String := ⟨s.data.take 500⟩

end Cointelegraph

/-- C9: the prompt builder is a pure, deterministic function of its four
inputs; it depends on the source article only through its first 500
characters; the market-context and competitor-context blocks are empty
exactly when the corresponding input is empty; and both blocks are embedded
in the prompt. -/
theorem C9_prompt_builder :
    (∀ (c c' : String) (k k' : List String) (m m' : Option Cointelegraph.MarketData)
        (i i' : Option Cointelegraph.CompetitorInsights),
      c = c' → k = k' → m = m' → i = i' →
      Cointelegraph.build_advanced_prompt c k m i =
        Cointelegraph.build_advanced_prompt c' k' m' i') ∧
    (∀ (c : String) (k : List String) (m : Option Cointelegraph.MarketData)
        (i : Option Cointelegraph.CompetitorInsights),
      Cointelegraph.build_advanced_prompt c k m i =
        Cointelegraph.build_advanced_prompt (Cointelegraph.take500 c) k m i) ∧
    (Cointelegraph.marketContextStr none = "" ∧
      ∀ md, Cointelegraph.marketContextStr (some md) ≠ "") ∧
    (Cointelegraph.competitorContextStr none = "" ∧
      ∀ ci, Cointelegraph.competitorContextStr (some ci) ≠ "") ∧
    (∀ (c : String) (k : List String) (m : Option Cointelegraph.MarketData)
        (i : Option Cointelegraph.CompetitorInsights),
      ∃ l r : List Char,
        (Cointelegraph.build_advanced_prompt c k m i).data =
          l ++ (Cointelegraph.marketContextStr m).data ++
            ('\n' :: (Cointelegraph.competitorContextStr i).data) ++ r) := by
  refine ⟨fun c c' k k' m m' i i' hc hk hm hi => by rw [hc, hk, hm, hi],
    fun c k m i => ?_, ⟨rfl, fun md => ?_⟩, ⟨rfl, fun ci => ?_⟩,
    fun c k m i => ?_⟩
  · unfold Cointelegraph.build_advanced_prompt Cointelegraph.promptSuffix
    rw [show (Cointelegraph.take500 c).data.take 500 = c.data.take 500 by
      simp [Cointelegraph.take500, List.take_take]]
  · intro h
    have hlen := congrArg String.length h
    have hlit : ("\nMARKET CONTEXT:\n- Bitcoin: $" : String).length ≠ 0 := by decide
    have hk : ("" : String).length = 0 := rfl
    simp only [Cointelegraph.marketContextStr, String.length_append] at hlen
    omega
  · intro h
    have hlen := congrArg String.length h
    have hlit : ("\nCOMPETITOR ANALYSIS:\n- Content gaps to address: " : String).length ≠ 0 := by
      decide
    have hk : ("" : String).length = 0 := rfl
    simp only [Cointelegraph.competitorContextStr, String.length_append] at hlen
    omega
  · refine ⟨(Cointelegraph.promptPrefix k).data, (Cointelegraph.promptSuffix c).data, ?_⟩
    simp [Cointelegraph.build_advanced_prompt, string_data_append, List.append_assoc]

/-- Witness for C9: the determinism implication at concrete equal inputs. -/
theorem C9_prompt_builder_witness :
    Cointelegraph.build_advanced_prompt "Source article body" ["bitcoin", "etf"] none none =
      Cointelegraph.build_advanced_prompt "Source article body" ["bitcoin", "etf"] none none :=
  C9_prompt_builder.1 "Source article body" "Source article body"
    ["bitcoin", "etf"] ["bitcoin", "etf"] none none none none rfl rfl rfl rfl

/-! ## HTML export of `cointelegraph.py` (`export_advanced_html`,
lines 558-709).  The document string is modelled exactly; the clock
(`datetime.now()`, sampled several times by the code) is modelled by single
`nowIso`/`nowDate`/`ts` parameters, and Python float/number rendering by
executable models on the rational number model. -/

/-- Hexadecimal digit (lowercase). -/
def hexDigit (n : ℕ) : Char :=
  if n < 10 then Char.ofNat (48 + n) else Char.ofNat (87 + n)

/-- Four lowercase hex digits, most significant first. -/
def hex4 (n : ℕ) : List Char :=
  [hexDigit (n / 4096 % 16), hexDigit (n / 256 % 16), hexDigit (n / 16 % 16),
    hexDigit (n % 16)]

/-- JSON string escaping of one character (`json.dumps` default escaping;
the `ensure_ascii` escaping of characters above 127 is not modelled). -/
def jsonEscapeChar (c : Char) : List Char :=
  if c = '"' then ['\\', '"']
  else if c = '\\' then ['\\', '\\']
  else if c = '\n' then ['\\', 'n']
  else if c = '\t' then ['\\', 't']
  else if c = '\r' then ['\\', 'r']
  else if c.toNat < 32 then '\\' :: 'u' :: hex4 c.toNat
  else [c]

/-- A JSON string literal for `s`. -/
def jsonStr (s : String) : String :=
  ⟨'"' :: ((s.data.map jsonEscapeChar).flatten ++ ['"'])⟩

/-- `{n:,}`: decimal digits grouped in threes. -/
def formatCommaNat (n : ℕ) : String := ⟨groupComma (Nat.toDigits 10 n)⟩

/-- Fractional decimal digits of `q ∈ [0, 1)`, most significant first,
stopping at a zero remainder or at the fuel bound. -/
def fracDigits : ℚ → ℕ → List Char
  | _, 0 => []
  | q, fuel + 1 =>
    if q = 0 then []
    else
      Char.ofNat (48 + (⌊q * 10⌋.toNat % 10)) :: fracDigits (q * 10 - ⌊q * 10⌋) fuel

/-- Model of Python float `str`: sign, integer part, a decimal point and at
least one fractional digit (at most ten are printed in this model). -/
def pyFloatRepr (q : ℚ) : String :=
  let sign : List Char := if q < 0 then ['-'] else []
  let a := |q|
  let ds := fracDigits (a - ⌊a⌋) 10
  ⟨sign ++ Nat.toDigits 10 ⌊a⌋.toNat ++ '.' :: (if ds.isEmpty then ['0'] else ds)⟩

/-- Python `str.split(sep)` for a multi-character separator: leftmost,
non-overlapping.  Structural recursion on a fuel bounded by the input
length. -/
def splitOnSubFuel (sep : List Char) : ℕ → List Char → List (List Char)
  | 0, l => [l]
  | _ + 1, [] => [[]]
  | fuel + 1, x :: xs =>
    if sep.isPrefixOf (x :: xs) then
      [] :: splitOnSubFuel sep fuel (List.drop sep.length (x :: xs))
    else
      match splitOnSubFuel sep fuel xs with
      | [] => [[x]]
      | r :: rs => (x :: r) :: rs

/-- Python `l.split(sep)` on character lists. -/
def pySplitSub (sep l : List Char) : List (List Char) :=
  splitOnSubFuel sep (l.length + 1) l

namespace Cointelegraph

/-- The quality-metric fields read by the exporter's panel; `none` models
the falsy empty dict. -/
structure QualityMetrics where
  quality_score : ℚ
  flesch_score : ℚ
  word_count : ℕ
deriving DecidableEq

/-- One iteration of the paragraph loop (lines 690-697): blank paragraphs
are dropped; a paragraph starting with `"##"` becomes an `<h2>` with
`paragraph[3:].strip()` as text; anything else a `<p>`. -/
def renderParagraph (para : List Char) : List Char :=
  let p := pyStrip para
  if p.isEmpty then []
  else if "##".data.isPrefixOf p then
    "            <h2>".data ++ pyStrip (p.drop 3) ++ "</h2>\n".data
  else "            <p>".data ++ p ++ "</p>\n".data

/-- The rendered body: `content.split('\n\n')` processed paragraph by
paragraph. -/
def renderContent (content : List Char) : List Char :=
  ((pySplitSub "\n\n".data content).map renderParagraph).flatten

/-- The excerpt (line 576): first 30 words, with `"..."` appended when there
are more. -/
def excerptOf (content : String) : String :=
  let ws := pyWords content.data
  ⟨interL " ".data (ws.take 30) ++ (if ws.length > 30 then "...".data else [])⟩

/-- The market-data panel of line 684 (empty for a falsy dict). -/
def marketPanel : Option MarketData → String
  | none => ""
  | some md =>
    "<div class=\"market-data\"><h3>📊 Market Update</h3><p>Bitcoin: $" ++
    formatComma2 md.bitcoin.price ++ " (" ++ formatSigned2 md.bitcoin.change24h ++
    "%) | Ethereum: $" ++ formatComma2 md.ethereum.price ++ " (" ++
    formatSigned2 md.ethereum.change24h ++ "%)</p></div>"

/-- The quality-metrics panel of line 685 (empty for a falsy dict). -/
def qualityPanel : Option QualityMetrics → String
  | none => ""
  | some qm =>
    "<div class=\"quality-metrics\"><h3>📈 Content Quality</h3><p>Quality Score: " ++
    pyFloatRepr qm.quality_score ++ "/100 | Readability: " ++
    pyFloatRepr qm.flesch_score ++ " | Word Count: " ++
    formatCommaNat qm.word_count ++ "</p></div>"

/-- `json.dumps(structured_data, indent=2)` for the fixed-shape dict of
lines 586-622, keys in insertion order, with the optional `about` entry when
market data is present. -/
def jsonLd (meta_title meta_desc nowIso ts : String) (keywords : List String)
    (word_count rt : ℕ) (market_data : Option MarketData) : String :=
  "\x7b\n  \"@context\": \"https://schema.org\",\n  \"@type\": \"Article\",\n  \"headline\": " ++
  jsonStr meta_title ++ ",\n  \"description\": " ++ jsonStr meta_desc ++
  ",\n  \"author\": \x7b\n    \"@type\": \"Person\",\n    \"name\": \"Crypto Expert\",\n    \"url\": \"https://example.com/author\"\n  \x7d,\n  \"publisher\": \x7b\n    \"@type\": \"Organization\",\n    \"name\": \"Crypto Insights Pro\",\n    \"logo\": \x7b\n      \"@type\": \"ImageObject\",\n      \"url\": \"https://example.com/logo.png\"\n    \x7d\n  \x7d,\n  \"datePublished\": " ++
  jsonStr nowIso ++ ",\n  \"dateModified\": " ++ jsonStr nowIso ++
  ",\n  \"mainEntityOfPage\": \x7b\n    \"@type\": \"WebPage\",\n    \"@id\": " ++
  jsonStr ("https://example.com/article/" ++ ts) ++
  "\n  \x7d,\n  \"articleSection\": \"Cryptocurrency\",\n  \"keywords\": " ++
  jsonStr (interS ", " (keywords.take 10)) ++ ",\n  \"wordCount\": " ++
  Nat.repr word_count ++ ",\n  \"timeRequired\": " ++
  jsonStr ("PT" ++ Nat.repr rt ++ "M") ++
  (match market_data with
   | none => ""
   | some md =>
     ",\n  \"about\": \x7b\n    \"@type\": \"Thing\",\n    \"name\": \"Cryptocurrency Market\",\n    \"description\": " ++
     jsonStr ("Bitcoin: $" ++ formatComma2 md.bitcoin.price ++ ", Ethereum: $" ++
       formatComma2 md.ethereum.price) ++ "\n  \x7d") ++
  "\n\x7d"

end Cointelegraph

namespace Cointelegraph

/-- The document head up to the `<title>` interpolation. -/
def docA : String :=
  "<!DOCTYPE html>\n<html lang=\"en\">\n<head>\n    <meta charset=\"UTF-8\">\n    <meta name=\"viewport\" content=\"width=device-width, initial-scale=1.0\">\n    <title>"

/-- The document from `</title>` through the meta-section panel, up to the
`<h1>` tag: meta tags, Open Graph, Twitter Card, JSON-LD, the inline style
sheet and the meta-section (these are the places where the truncated
`meta_title` appears). -/
def docB (meta_title meta_desc : String) (keywords : List String)
    (word_count rt : ℕ) (market_data : Option MarketData)
    (nowIso ts : String) : String :=
  "</title>\n    <meta name=\"description\" content=\"" ++
  (⟨meta_desc.data.take 160⟩ : String) ++
  "\">\n    <meta name=\"keywords\" content=\"" ++ interS ", " keywords ++
  "\">\n    <meta name=\"robots\" content=\"index, follow, max-snippet:-1, max-image-preview:large, max-video-preview:-1\">\n    <meta name=\"author\" content=\"Crypto Expert\">\n    <meta name=\"article:published_time\" content=\"" ++
  nowIso ++ "\">\n    <meta name=\"article:modified_time\" content=\"" ++ nowIso ++
  "\">\n    \n    <!-- Open Graph -->\n    <meta property=\"og:title\" content=\"" ++
  meta_title ++ "\">\n    <meta property=\"og:description\" content=\"" ++
  (⟨meta_desc.data.take 160⟩ : String) ++
  "\">\n    <meta property=\"og:type\" content=\"article\">\n    <meta property=\"og:site_name\" content=\"Crypto Insights Pro\">\n    \n    <!-- Twitter Card -->\n    <meta name=\"twitter:card\" content=\"summary_large_image\">\n    <meta name=\"twitter:title\" content=\"" ++
  meta_title ++ "\">\n    <meta name=\"twitter:description\" content=\"" ++
  (⟨meta_desc.data.take 160⟩ : String) ++
  "\">\n    \n    <!-- Structured Data -->\n    <script type=\"application/ld+json\">\n    " ++
  jsonLd meta_title meta_desc nowIso ts keywords word_count rt market_data ++
  "\n    </script>\n    \n    <style>\n        body \x7b font-family: \x27Arial\x27, sans-serif; line-height: 1.7; max-width: 900px; margin: 0 auto; padding: 20px; color: #333; \x7d\n        h1 \x7b color: #2c3e50; border-bottom: 3px solid #3498db; padding-bottom: 15px; font-size: 2.2em; \x7d\n        h2 \x7b color: #34495e; margin-top: 40px; margin-bottom: 20px; font-size: 1.6em; border-left: 4px solid #3498db; padding-left: 15px; \x7d\n        p \x7b margin-bottom: 20px; text-align: justify; font-size: 16px; \x7d\n        .meta \x7b background: linear-gradient(135deg, #667eea 0%, #764ba2 100%); color: white; padding: 20px; border-radius: 10px; margin-bottom: 30px; \x7d\n        .reading-time \x7b font-style: italic; margin-bottom: 10px; \x7d\n        .keywords \x7b font-size: 14px; opacity: 0.9; \x7d\n        .quality-metrics \x7b background: #f8f9fa; padding: 15px; border-radius: 8px; margin: 20px 0; border-left: 4px solid #28a745; \x7d\n        .market-data \x7b background: #e8f5e8; padding: 15px; border-radius: 8px; margin: 20px 0; border-left: 4px solid #28a745; \x7d\n        .disclaimer \x7b background: #fff3cd; padding: 15px; border-radius: 8px; margin: 20px 0; border-left: 4px solid #ffc107; font-size: 14px; \x7d\n        a \x7b color: #3498db; text-decoration: none; \x7d\n        a:hover \x7b text-decoration: underline; \x7d\n        .highlight \x7b background: #fff3cd; padding: 2px 4px; border-radius: 3px; \x7d\n        .meta-section \x7b background: linear-gradient(135deg, #667eea 0%, #764ba2 100%); color: white; padding: 20px; border-radius: 10px; margin-bottom: 30px; \x7d\n        .excerpt-section \x7b background: #eaf6ff; border-left: 4px solid #3498db; padding: 12px 18px; margin-bottom: 24px; font-style: italic; color: #2c3e50; \x7d\n    </style>\n</head>\n<body>\n    <article>\n        <div class=\"meta-section\">\n            <div><strong>Meta Title:</strong> " ++
  meta_title ++ "</div>\n            <div><strong>Meta Description:</strong> " ++
  meta_desc ++ "</div>\n            <div><strong>Keywords:</strong> " ++
  interS ", " (keywords.take 5) ++ "</div>\n        </div>\n        "

/-- The document after `</h1>`: excerpt section, meta panel, the optional
market/quality panels, the rendered body and the fixed disclaimer/footer. -/
def docC (content : String) (rt : ℕ) (nowDate : String)
    (market_data : Option MarketData)
    (quality_metrics : Option QualityMetrics) : String :=
  "\n        <div class=\"excerpt-section\"><strong>Excerpt:</strong> " ++
  excerptOf content ++
  "</div>\n        <div class=\"meta\">\n            <div class=\"reading-time\">📖 Reading time: " ++
  Nat.repr rt ++ " minutes</div>\n            <div>📅 Published: " ++ nowDate ++
  "</div>\n        </div>\n        " ++ marketPanel market_data ++ "\n        " ++
  qualityPanel quality_metrics ++ "\n        <div class=\"content\">\n" ++
  (⟨renderContent content.data⟩ : String) ++
  "\n        <div class=\"disclaimer\">\n            <strong>Disclaimer:</strong> This article is for informational purposes only and does not constitute financial advice. Cryptocurrency investments carry significant risks. Always conduct your own research and consult with financial advisors before making investment decisions.\n        </div>\n        </div>\n    </article>\n</body>\n</html>"

/-- The full document written by `export_advanced_html`: the truncated
`meta_title` goes into the head, cards, JSON-LD and the meta-section panel
(all inside `docB`'s interpolations), while the `<h1>` heading embeds the
stripped but untruncated `title`. -/
def export_advanced_html_doc (title content : String) (keywords : List String)
    (meta_description : String) (market_data : Option MarketData)
    (quality_metrics : Option QualityMetrics) (nowIso nowDate ts : String) : String :=
  docA ++ metaTitleOf title ++
  docB (metaTitleOf title) (metaDescriptionOf meta_description) keywords
    (wordCount content) (reading_time (wordCount content)) market_data nowIso ts ++
  "<h1>" ++ pyStripStr title ++ "</h1>" ++
  docC content (reading_time (wordCount content)) nowDate market_data quality_metrics

/-- For a stripped title longer than 60 characters the meta title is the
57-character prefix plus an ellipsis, hence 60 characters long. -/
theorem metaTitleOf_of_long {title : String}
    (h : (pyStripStr title).data.length > 60) :
    Cointelegraph.metaTitleOf title = (⟨(pyStripStr title).data.take 57⟩ : String) ++ "..." ∧
    (Cointelegraph.metaTitleOf title).data.length = 60 := by
  constructor
  · unfold Cointelegraph.metaTitleOf
    dsimp only
    rw [if_pos h]
  · unfold Cointelegraph.metaTitleOf
    dsimp only
    have h57 : 57 ≤ (pyStripStr title).data.length := by omega
    rw [if_pos h, stringMk_append_data, List.length_append, List.length_take,
      min_eq_left h57]
    rfl

end Cointelegraph

/-- C10: in `export_advanced_html`, only the meta title is truncated to 60
characters; the visible `<h1>` heading embeds the full stripped title
verbatim.  For every title whose stripped form exceeds 60 characters the
exported document contains both the truncated form (among others, in the
`<title>` tag via `docA ++ meta_title`) and the full untruncated form inside
`<h1>...</h1>`, and the two forms differ. -/
theorem C10_meta_vs_h1_title (title content : String) (keywords : List String)
    (meta_description : String) (market_data : Option Cointelegraph.MarketData)
    (quality_metrics : Option Cointelegraph.QualityMetrics)
    (nowIso nowDate ts : String)
    (h : (pyStripStr title).data.length > 60) :
    Cointelegraph.metaTitleOf title ≠ pyStripStr title ∧
    (∃ l r : List Char,
      (Cointelegraph.export_advanced_html_doc title content keywords meta_description
          market_data quality_metrics nowIso nowDate ts).data =
        l ++ (Cointelegraph.metaTitleOf title).data ++ r) ∧
    (∃ l r : List Char,
      (Cointelegraph.export_advanced_html_doc title content keywords meta_description
          market_data quality_metrics nowIso nowDate ts).data =
        l ++ ("<h1>" ++ pyStripStr title ++ "</h1>").data ++ r) := by
  refine ⟨?_,
    ⟨Cointelegraph.docA.data,
      (Cointelegraph.docB (Cointelegraph.metaTitleOf title)
          (Cointelegraph.metaDescriptionOf meta_description) keywords
          (wordCount content) (Cointelegraph.reading_time (wordCount content))
          market_data nowIso ts ++
        "<h1>" ++ pyStripStr title ++ "</h1>" ++
        Cointelegraph.docC content (Cointelegraph.reading_time (wordCount content))
          nowDate market_data quality_metrics).data, ?_⟩,
    ⟨(Cointelegraph.docA ++ Cointelegraph.metaTitleOf title ++
        Cointelegraph.docB (Cointelegraph.metaTitleOf title)
          (Cointelegraph.metaDescriptionOf meta_description) keywords
          (wordCount content) (Cointelegraph.reading_time (wordCount content))
          market_data nowIso ts).data,
      (Cointelegraph.docC content (Cointelegraph.reading_time (wordCount content))
          nowDate market_data quality_metrics).data, ?_⟩⟩
  · intro heq
    have hlen := congrArg (fun s : String => s.data.length) heq
    have h60 := (Cointelegraph.metaTitleOf_of_long h).2
    dsimp only at hlen
    omega
  · simp [Cointelegraph.export_advanced_html_doc, string_data_append, List.append_assoc]
  · simp [Cointelegraph.export_advanced_html_doc, string_data_append, List.append_assoc]

set_option maxRecDepth 10000 in
/-- Witness for C10: a 70-character title. -/
theorem C10_meta_vs_h1_title_witness :
    (pyStripStr ⟨List.replicate 70 'a'⟩).data.length > 60 ∧
    Cointelegraph.metaTitleOf ⟨List.replicate 70 'a'⟩ ≠ pyStripStr ⟨List.replicate 70 'a'⟩ :=
  ⟨by decide,
    (C10_meta_vs_h1_title ⟨List.replicate 70 'a'⟩ "Body paragraph." ["bitcoin"]
      "A description." none none "2026-10-12T00:00:00" "October 12, 2026"
      "20261012T000000" (by decide)).1⟩
